import Mathlib

/-!
# Verification of the lit-notes example components

Shallow embedding of the TypeScript components of the `lit-notes` repository
and proofs about them.  Each component's mutable state becomes a Lean
structure, each method becomes a function from (state, arguments) to the new
state and/or result.  JavaScript numbers are modelled as rationals (`ℚ`);
`Number.MIN_VALUE` (the smallest positive double, `2^-1074`) is an exactly
representable rational, and the only numeric operations used by the code
(`Math.max`, `+1`, `* -1`) are exact on the values involved.  JavaScript
strings are modelled as Lean `String`s via their character lists;
`String.prototype.localeCompare` is modelled as code-point lexicographic
comparison returning -1/0/1, which agrees with the default locale comparison
on the ASCII identifiers appearing in the repository's data.
-/

/- ------------------------------------------------------------------
   04-lifecycle/src/07-triggering-update.ts : PerformingUpdateElement
   ------------------------------------------------------------------ -/

/-- State of `PerformingUpdateElement`
(src/packages/04-lifecycle/src/07-triggering-update.ts):
reactive properties `prop1`, `prop2` and internal state `sha`. -/
structure PerformingUpdateElement where
  prop1 : String
  prop2 : String
  sha : String
deriving DecidableEq

/-- Initial state from the field initializers:
`prop1 = ""`, `prop2 = "never changes"`, `sha = ""`. -/
def PerformingUpdateElement.init : PerformingUpdateElement :=
  { prop1 := "", prop2 := "never changes", sha := "" }

/-- Method `shouldUpdate(changedProperties)` from the source: the body logs
and then returns `changedProperties.has("prop1")`.  The JS `Map` of changed
properties is modelled as an association list of (property name, previous
value); `Map.has` is key membership. -/
def PerformingUpdateElement.shouldUpdate
    (changedProperties : List (String × String)) : Bool :=
  changedProperties.any (fun p => decide (p.1 = "prop1"))

/-- Method `willUpdate(changedProperties)` from the source: when `prop1` is
among the changed properties it recomputes `sha` as the template string
interpolating `prop1`, a space, and `prop2`. -/
def PerformingUpdateElement.willUpdate (s : PerformingUpdateElement)
    (changedProperties : List (String × String)) : PerformingUpdateElement :=
  if PerformingUpdateElement.shouldUpdate changedProperties then
    { s with sha := s.prop1 ++ " " ++ s.prop2 }
  else s

/-- Method `render()` from the source, with the html template's interpolation
modelled as string concatenation. -/
def PerformingUpdateElement.render (s : PerformingUpdateElement) : String :=
  "<div>PerformingUpdateElement: " ++ s.prop1 ++ ", " ++ s.prop2 ++ ", "
    ++ s.sha ++ "</div>"

/-- The framework's update cycle specialised to this component: `shouldUpdate`
gates the rest of the cycle (`willUpdate`, `update`/`render`).  If
`shouldUpdate` returns `false` the rest of the update cycle is not called and
the state and rendered view are unchanged. -/
def PerformingUpdateElement.performUpdate (s : PerformingUpdateElement)
    (changedProperties : List (String × String)) :
    PerformingUpdateElement × Option String :=
  if PerformingUpdateElement.shouldUpdate changedProperties then
    let s' := PerformingUpdateElement.willUpdate s changedProperties
    (s', some (PerformingUpdateElement.render s'))
  else (s, none)

/- ------------------------------------------------------------------
   04-lifecycle/src/03-disconnected-callback.ts :
   AttributeChangedCallbackElement
   ------------------------------------------------------------------ -/

/-- State of `AttributeChangedCallbackElement`
(src/packages/04-lifecycle/src/03-disconnected-callback.ts): the single
reactive property `msg`. -/
structure AttributeChangedCallbackElement where
  msg : String
deriving DecidableEq

/-- Initial state from the field initializer `msg = 'default'`. -/
def AttributeChangedCallbackElement.init : AttributeChangedCallbackElement :=
  { msg := "default" }

/-- Method `attributeChangedCallback(name, oldValue, newValue)` from the
source: the body logs the arguments (no state effect) and then assigns
`this.msg = newValue` unconditionally. -/
def AttributeChangedCallbackElement.attributeChangedCallback
    (_s : AttributeChangedCallbackElement)
    (_name _oldValue newValue : String) : AttributeChangedCallbackElement :=
  { msg := newValue }

/- ------------------------------------------------------------------
   06-events/src/01-listening-to-events.ts : ListenersInTheElementTemplate
   ------------------------------------------------------------------ -/

/-- State of `ListenersInTheElementTemplate`
(src/packages/06-events/src/01-listening-to-events.ts): the reactive
property `count`.  The JS number holds small integers here, modelled as `ℤ`. -/
structure ListenersInTheElementTemplate where
  count : ℤ
deriving DecidableEq

/-- Initial state from the field initializer `count = 0`. -/
def ListenersInTheElementTemplate.init : ListenersInTheElementTemplate :=
  { count := 0 }

/-- The click handler `_increment(e)` from the source: logs the event and
executes `this.count++`. -/
def ListenersInTheElementTemplate.increment
    (s : ListenersInTheElementTemplate) : ListenersInTheElementTemplate :=
  { count := s.count + 1 }

/-- Iterated clicks: `k` successive invocations of the click handler. -/
def ListenersInTheElementTemplate.clicks
    (s : ListenersInTheElementTemplate) :
    Nat → ListenersInTheElementTemplate
  | 0 => s
  | Nat.succ k => ListenersInTheElementTemplate.clicks
      (ListenersInTheElementTemplate.increment s) k

/- ------------------------------------------------------------------
   08-templates/src/04-list.ts (directives segment) : noVowels, MaxDirective
   ------------------------------------------------------------------ -/

/-- Vowel test for the regular expression `[aeiou]` with the `i` flag.  Under
ECMAScript canonicalisation, the case-insensitive class `[aeiou]` matches
exactly the ten ASCII vowel characters (non-ASCII characters whose upper case
would be ASCII are excluded by the spec's canonicalisation rule). -/
def isVowelChar (c : Char) : Bool :=
  ['a', 'e', 'i', 'o', 'u', 'A', 'E', 'I', 'O', 'U'].contains c

/-- Per-character action of `replaceAll(/[aeiou]/gi, "x")`: each matched
character (a single code unit) is replaced by the single character 'x'. -/
def noVowelsChar (c : Char) : Char :=
  if isVowelChar c then 'x' else c

/-- Helper `noVowels` from the source:
`(str) => str.replaceAll(/[aeiou]/gi, "x")`.  Since the pattern matches
single characters and the replacement is a single character, `replaceAll` is
the character-wise map of `noVowelsChar`. -/
def noVowels (s : String) : String :=
  String.mk (s.data.map noVowelsChar)

/-- The rational value of `Number.MIN_VALUE`, the smallest positive IEEE-754
double: `2 ^ (-1074)`, exactly representable as a rational. -/
def numberMinValue : ℚ := 1 / 2 ^ 1074

/-- Instance state of the class-based directive `MaxDirective`: the field
`maxValue`, persisted between renders. -/
structure MaxDirective where
  maxValue : ℚ
deriving DecidableEq

/-- A fresh `MaxDirective` instance: the field initializer is
`maxValue = Number.MIN_VALUE`. -/
def MaxDirective.start : MaxDirective := { maxValue := numberMinValue }

/-- Method `render(value, minValue = Number.MIN_VALUE)` of `MaxDirective`:
sets `this.maxValue = Math.max(value, this.maxValue, minValue)` and returns
the new `maxValue`.  Returns (result, new instance state). -/
def MaxDirective.render (d : MaxDirective) (value : ℚ)
    (minValue : ℚ := numberMinValue) : ℚ × MaxDirective :=
  let m := max value (max d.maxValue minValue)
  (m, { maxValue := m })

/-- Run a sequence of `render` calls (each given by its (value, minValue)
argument pair) on a directive instance, returning the final instance state. -/
def MaxDirective.runCalls (d : MaxDirective) (calls : List (ℚ × ℚ)) :
    MaxDirective :=
  calls.foldl (fun d p => (d.render p.1 p.2).2) d

/- ------------------------------------------------------------------
   06-events/src/02-dispatching-events.ts : MyDispatcher
   ------------------------------------------------------------------ -/

/-- The ECMAScript WhiteSpace and LineTerminator code points removed by
`String.prototype.trim`: TAB, LF, VT, FF, CR, SP, NBSP, the Unicode Zs
category, LS, PS and ZWNBSP. -/
def jsWhitespaceChars : List Char :=
  [Char.ofNat 0x9, Char.ofNat 0xA, Char.ofNat 0xB, Char.ofNat 0xC,
   Char.ofNat 0xD, Char.ofNat 0x20, Char.ofNat 0xA0, Char.ofNat 0x1680,
   Char.ofNat 0x2000, Char.ofNat 0x2001, Char.ofNat 0x2002, Char.ofNat 0x2003,
   Char.ofNat 0x2004, Char.ofNat 0x2005, Char.ofNat 0x2006, Char.ofNat 0x2007,
   Char.ofNat 0x2008, Char.ofNat 0x2009, Char.ofNat 0x200A, Char.ofNat 0x2028,
   Char.ofNat 0x2029, Char.ofNat 0x202F, Char.ofNat 0x205F, Char.ofNat 0x3000,
   Char.ofNat 0xFEFF]

/-- Whitespace test used by the model of `trim`. -/
def isJsWhitespace (c : Char) : Bool := jsWhitespaceChars.contains c

/-- Model of `String.prototype.trim`: drop leading and trailing JS
whitespace. -/
def jsTrim (s : String) : String :=
  String.mk (((s.data.dropWhile isJsWhitespace).reverse.dropWhile
      isJsWhitespace).reverse)

/-- A dispatched `mylogin` `CustomEvent`, keeping the fields the code sets:
the event type, `detail.name`, and the `bubbles` / `composed` options. -/
structure LoginEvent where
  eventKind : String
  detailName : String
  bubbles : Bool
  composed : Bool
deriving DecidableEq

/-- State of `MyDispatcher`
(src/packages/06-events/src/02-dispatching-events.ts): the component has no
reactive properties; the only state `_dispatchLogin` reads is the queried
input element's current value. -/
structure MyDispatcher where
  inputValue : String
deriving DecidableEq

/-- Method `_dispatchLogin()` from the source: reads
`this._input.value.trim()`; if the trimmed name is truthy (a non-empty
string) it dispatches `new CustomEvent("mylogin", {detail: {name}, bubbles:
true, composed: true})`, otherwise it does nothing.  Returns the (unchanged)
component state together with the optional dispatched event. -/
def MyDispatcher.dispatchLogin (st : MyDispatcher) :
    MyDispatcher × Option LoginEvent :=
  let name := jsTrim st.inputValue
  if name ≠ "" then
    (st, some { eventKind := "mylogin", detailName := name,
                bubbles := true, composed := true })
  else (st, none)

/- ------------------------------------------------------------------
   08-templates/src/04-list.ts (first segment) :
   ListElements, RepeatElements, RepeatOrMap
   ------------------------------------------------------------------ -/

/-- Model of `String.prototype.localeCompare` on character lists: code-point
lexicographic comparison returning -1, 0 or 1.  The default-locale collation
agrees with code-point order on the ASCII, same-case family and given names
appearing in the component's data. -/
def lexCmp : List Char → List Char → ℤ
  | [], [] => 0
  | [], _ :: _ => -1
  | _ :: _, [] => 1
  | a :: as, b :: bs =>
      if a < b then -1 else if b < a then 1 else lexCmp as bs

/-- Comparison of two JS strings, via their character lists. -/
def lcmp (a b : String) : ℤ := lexCmp a.data b.data

/-- The JS `||` operator on comparator results: `x || y` evaluates to `x`
when `x` is truthy (a nonzero number) and to `y` otherwise. -/
def jsOr (x y : ℤ) : ℤ := if x ≠ 0 then x else y

/-- An entry of the `employees` array of `RepeatElements`:
a record with `id`, `givenName` and `familyName`. -/
structure Employee where
  id : ℤ
  givenName : String
  familyName : String
deriving DecidableEq

/-- The comparator passed to `Array.prototype.sort` inside `toggleSort`:
`this.sort * (a.familyName.localeCompare(b.familyName) ||
a.givenName.localeCompare(b.givenName))`, where `sort` is the value of the
`sort` field at the time of the call (after the negation). -/
def employeeCompare (sort : ℤ) (a b : Employee) : ℤ :=
  sort * jsOr (lcmp a.familyName b.familyName) (lcmp a.givenName b.givenName)

/-- State of `RepeatElements`
(src/packages/08-templates/src/04-list.ts): the private field `sort` and the
reactive property `employees`. -/
structure RepeatElements where
  sort : ℤ
  employees : List Employee

/-- Initial state of `RepeatElements` from the field initializers:
`sort = 1` and the four-employee array. -/
def RepeatElements.init : RepeatElements :=
  { sort := 1,
    employees :=
      [ { id := 0, givenName := "Fred", familyName := "Flintstone" },
        { id := 1, givenName := "George", familyName := "Jetson" },
        { id := 2, givenName := "Barney", familyName := "Rubble" },
        { id := 3, givenName := "Cosmo", familyName := "Spacely" } ] }

/-- Method `toggleSort()` from the source: first `this.sort *= -1`, then
`this.employees = [...this.employees.sort(comparator)]`.
`Array.prototype.sort` (a stable sorted permutation under the user
comparator, where `comparator a b <= 0` puts `a` no later than `b`) is
modelled by `List.mergeSort`. -/
def RepeatElements.toggleSort (st : RepeatElements) : RepeatElements :=
  let sort' := st.sort * -1
  { sort := sort',
    employees :=
      st.employees.mergeSort (fun a b => decide (employeeCompare sort' a b ≤ 0)) }

/- ------------------------------------------------------------------
   Static inventories transcribed from the source declarations
   ------------------------------------------------------------------ -/

/-- TypeScript types of component instance fields, as declared or inferred
from the field initializers in the source. -/
inductive TsType where
  | number : TsType
  | string : TsType
  | boolean : TsType
  | array : TsType → TsType
  | record : List (String × TsType) → TsType

/-- A field is "simple" when its type is `number`, `string` or `boolean`
(the "simple counters, strings, booleans" of the spec). -/
def TsType.isSimple : TsType → Bool
  | .number => true
  | .string => true
  | .boolean => true
  | _ => false

/-- An array type (of any element type). -/
def TsType.isArray : TsType → Bool
  | .array _ => true
  | _ => false

/-- A mutable instance field of a component, with its declared type. -/
structure ComponentField where
  owner : String
  fieldName : String
  fieldType : TsType

/-- The mutable instance fields of the three components defined in the first
segment of src/packages/08-templates/src/04-list.ts, transcribed from their
declarations: `ListElements.colors` (line 12), `RepeatElements.sort` (line
46), `RepeatElements.employees` (lines 48-53) and `RepeatOrMap.users` (lines
95-99). -/
def componentFields : List ComponentField :=
  [ { owner := "ListElements", fieldName := "colors",
      fieldType := .array .string },
    { owner := "RepeatElements", fieldName := "sort",
      fieldType := .number },
    { owner := "RepeatElements", fieldName := "employees",
      fieldType := .array (.record
        [("id", .number), ("givenName", .string), ("familyName", .string)]) },
    { owner := "RepeatOrMap", fieldName := "users",
      fieldType := .array (.record [("id", .number), ("name", .string)]) } ]

/-- Update-scheduling behaviour of a component, transcribed from its source:
whether it overrides `scheduleUpdate()`, whether it installs a timer
(`setInterval`/`setTimeout`) that calls `requestUpdate()`, and whether it
defines a scheduler, lock, queue or concurrent data structure of its own. -/
structure SchedulingProfile where
  owner : String
  overridesScheduleUpdate : Bool
  installsUpdateTimer : Bool
  definesSchedulerLockOrQueue : Bool
deriving DecidableEq

/-- Scheduling profiles of the components of the 04-lifecycle package files,
transcribed from the source: `TriggeringUpdateElement.connectedCallback`
(07-triggering-update.ts lines 27-34) installs a `setInterval` calling
`requestUpdate()` every second, and `CustomizeUpdateElement.scheduleUpdate`
(10-customize-update.ts lines 38-45) overrides `scheduleUpdate()`, deferring
the update behind an awaited `setTimeout` promise.  No component defines a
scheduler, lock, queue or concurrent data structure of its own. -/
def schedulingProfiles : List SchedulingProfile :=
  [ { owner := "TriggeringUpdateElement", overridesScheduleUpdate := false,
      installsUpdateTimer := true, definesSchedulerLockOrQueue := false },
    { owner := "PerformingUpdateElement", overridesScheduleUpdate := false,
      installsUpdateTimer := false, definesSchedulerLockOrQueue := false },
    { owner := "ChildElement", overridesScheduleUpdate := false,
      installsUpdateTimer := false, definesSchedulerLockOrQueue := false },
    { owner := "CustomizeUpdateElement", overridesScheduleUpdate := true,
      installsUpdateTimer := false, definesSchedulerLockOrQueue := false },
    { owner := "DisconnectedCallbackElement", overridesScheduleUpdate := false,
      installsUpdateTimer := false, definesSchedulerLockOrQueue := false },
    { owner := "AttributeChangedCallbackElement",
      overridesScheduleUpdate := false,
      installsUpdateTimer := false, definesSchedulerLockOrQueue := false } ]

/-- A component supplies its own update timing when it overrides
`scheduleUpdate()` or installs a timer that calls `requestUpdate()`. -/
def SchedulingProfile.suppliesOwnUpdateTiming (p : SchedulingProfile) : Bool :=
  p.overridesScheduleUpdate || p.installsUpdateTimer

/- ------------------------------------------------------------------
   Order theory for the lexicographic comparator
   ------------------------------------------------------------------ -/

/-- Sortedness target taken from the claim's wording: employee `a` comes no
later than employee `b` when its family name compares strictly below, or the
family names are equal and the given name compares no later. -/
def byNameLe (a b : Employee) : Prop :=
  lcmp a.familyName b.familyName < 0 ∨
    (a.familyName = b.familyName ∧ lcmp a.givenName b.givenName ≤ 0)

theorem lexCmp_neg (x y : List Char) : lexCmp y x = -lexCmp x y := by
  induction x generalizing y with
  | nil => cases y <;> simp [lexCmp]
  | cons a as ih =>
    cases y with
    | nil => simp [lexCmp]
    | cons b bs =>
      simp only [lexCmp]
      rcases lt_trichotomy a b with h | h | h
      · have h' : ¬ b < a := lt_asymm h
        simp [h, h']
      · subst h
        simp [lt_irrefl, ih]
      · have h' : ¬ a < b := lt_asymm h
        simp [h, h']

theorem lexCmp_eq_zero_iff (x y : List Char) : lexCmp x y = 0 ↔ x = y := by
  induction x generalizing y with
  | nil => cases y <;> simp [lexCmp]
  | cons a as ih =>
    cases y with
    | nil => simp [lexCmp]
    | cons b bs =>
      simp only [lexCmp]
      rcases lt_trichotomy a b with h | h | h
      · have hne : a ≠ b := ne_of_lt h
        simp [h, hne]
      · subst h
        have h1 : ¬ a < a := lt_irrefl a
        simp [h1, ih]
      · have h' : ¬ a < b := lt_asymm h
        have hne : a ≠ b := (ne_of_lt h).symm
        simp [h, h', hne]

theorem lexCmp_le_trans {x y z : List Char} (h1 : lexCmp x y ≤ 0)
    (h2 : lexCmp y z ≤ 0) : lexCmp x z ≤ 0 := by
  induction x generalizing y z with
  | nil => cases z <;> simp [lexCmp]
  | cons a as ih =>
    cases y with
    | nil => simp [lexCmp] at h1
    | cons b bs =>
      cases z with
      | nil => simp [lexCmp] at h2
      | cons c cs =>
        simp only [lexCmp] at h1 h2 ⊢
        rcases lt_trichotomy a b with hab | hab | hab
        · rcases lt_trichotomy b c with hbc | hbc | hbc
          · have hac : a < c := lt_trans hab hbc
            rw [if_pos hac]
            norm_num
          · subst hbc
            rw [if_pos hab]
            norm_num
          · rw [if_neg (lt_asymm hbc), if_pos hbc] at h2
            exact absurd h2 (by norm_num)
        · subst hab
          rcases lt_trichotomy a c with hac | hac | hac
          · rw [if_pos hac]
            norm_num
          · subst hac
            rw [if_neg (lt_irrefl a), if_neg (lt_irrefl a)] at h1 h2 ⊢
            exact ih h1 h2
          · rw [if_neg (lt_asymm hac), if_pos hac] at h2
            exact absurd h2 (by norm_num)
        · rw [if_neg (lt_asymm hab), if_pos hab] at h1
          exact absurd h1 (by norm_num)

theorem lexCmp_lt_trans {x y z : List Char} (h1 : lexCmp x y < 0)
    (h2 : lexCmp y z < 0) : lexCmp x z < 0 := by
  have h3 : lexCmp x z ≤ 0 := lexCmp_le_trans (le_of_lt h1) (le_of_lt h2)
  rcases lt_or_eq_of_le h3 with h | h
  · exact h
  · exfalso
    have hxz : x = z := (lexCmp_eq_zero_iff x z).mp h
    subst hxz
    have := lexCmp_neg x y
    omega

theorem stringEqOfDataEq {a b : String} (h : a.data = b.data) : a = b := by
  cases a
  cases b
  exact congrArg String.mk h

theorem lcmp_neg (a b : String) : lcmp b a = -lcmp a b := lexCmp_neg a.data b.data

theorem lcmp_eq_zero_iff (a b : String) : lcmp a b = 0 ↔ a = b := by
  rw [lcmp, lexCmp_eq_zero_iff]
  constructor
  · exact stringEqOfDataEq
  · rintro rfl
    rfl

theorem lcmp_le_trans {a b c : String} (h1 : lcmp a b ≤ 0) (h2 : lcmp b c ≤ 0) :
    lcmp a c ≤ 0 := lexCmp_le_trans h1 h2

theorem lcmp_lt_trans {a b c : String} (h1 : lcmp a b < 0) (h2 : lcmp b c < 0) :
    lcmp a c < 0 := lexCmp_lt_trans h1 h2

theorem jsOr_le_iff (x y : ℤ) : jsOr x y ≤ 0 ↔ x < 0 ∨ (x = 0 ∧ y ≤ 0) := by
  rw [jsOr]
  split_ifs with h <;> omega

theorem jsOr_neg (x y : ℤ) : jsOr (-x) (-y) = -(jsOr x y) := by
  rw [jsOr, jsOr]
  split_ifs with h1 h2 h2 <;> omega

theorem employeeCompare_one_le_iff (a b : Employee) :
    employeeCompare 1 a b ≤ 0 ↔ byNameLe a b := by
  rw [employeeCompare, byNameLe, one_mul, jsOr_le_iff, lcmp_eq_zero_iff]

theorem employeeCompare_one_antisymm (a b : Employee) :
    employeeCompare 1 b a = -(employeeCompare 1 a b) := by
  rw [employeeCompare, employeeCompare, one_mul, one_mul,
    lcmp_neg a.familyName b.familyName, lcmp_neg a.givenName b.givenName,
    jsOr_neg]

theorem employeeCompare_negOne_le_iff (a b : Employee) :
    employeeCompare (-1) a b ≤ 0 ↔ byNameLe b a := by
  have h1 : employeeCompare (-1) a b = -(employeeCompare 1 a b) := by
    rw [employeeCompare, employeeCompare]
    ring
  have h2 := employeeCompare_one_antisymm a b
  rw [h1, ← employeeCompare_one_le_iff b a]
  omega

theorem byNameLe_trans {a b c : Employee} (h1 : byNameLe a b)
    (h2 : byNameLe b c) : byNameLe a c := by
  rcases h1 with h1 | ⟨h1e, h1g⟩
  · rcases h2 with h2 | ⟨h2e, h2g⟩
    · exact Or.inl (lcmp_lt_trans h1 h2)
    · exact Or.inl (by rw [← h2e]; exact h1)
  · rcases h2 with h2 | ⟨h2e, h2g⟩
    · exact Or.inl (by rw [h1e]; exact h2)
    · exact Or.inr ⟨h1e.trans h2e, lcmp_le_trans h1g h2g⟩

theorem byNameLe_total (a b : Employee) : byNameLe a b ∨ byNameLe b a := by
  rcases lt_trichotomy (lcmp a.familyName b.familyName) 0 with h | h | h
  · exact Or.inl (Or.inl h)
  · have he : a.familyName = b.familyName := (lcmp_eq_zero_iff _ _).mp h
    rcases le_total (lcmp a.givenName b.givenName) 0 with hg | hg
    · exact Or.inl (Or.inr ⟨he, hg⟩)
    · refine Or.inr (Or.inr ⟨he.symm, ?_⟩)
      rw [lcmp_neg a.givenName b.givenName]
      omega
  · refine Or.inr (Or.inl ?_)
    rw [lcmp_neg a.familyName b.familyName]
    omega

/- ------------------------------------------------------------------
   Sortedness of the mergeSort model of Array.prototype.sort
   ------------------------------------------------------------------ -/

theorem mergeSort_asc_pairwise (l : List Employee) :
    (l.mergeSort fun a b => decide (employeeCompare 1 a b ≤ 0)).Pairwise
      byNameLe := by
  have htrans : ∀ a b c : Employee,
      (decide (employeeCompare 1 a b ≤ 0)) = true →
      (decide (employeeCompare 1 b c ≤ 0)) = true →
      (decide (employeeCompare 1 a c ≤ 0)) = true := by
    intro a b c hab hbc
    rw [decide_eq_true_iff] at hab hbc ⊢
    rw [employeeCompare_one_le_iff] at hab hbc ⊢
    exact byNameLe_trans hab hbc
  have htotal : ∀ a b : Employee,
      ((decide (employeeCompare 1 a b ≤ 0)) ||
        (decide (employeeCompare 1 b a ≤ 0))) = true := by
    intro a b
    rw [Bool.or_eq_true, decide_eq_true_iff, decide_eq_true_iff,
      employeeCompare_one_le_iff, employeeCompare_one_le_iff]
    exact byNameLe_total a b
  have hp := List.sorted_mergeSort htrans htotal l
  exact hp.imp (fun h => (employeeCompare_one_le_iff _ _).mp
    (of_decide_eq_true h))

theorem mergeSort_desc_pairwise (l : List Employee) :
    (l.mergeSort fun a b => decide (employeeCompare (-1) a b ≤ 0)).Pairwise
      (fun a b => byNameLe b a) := by
  have htrans : ∀ a b c : Employee,
      (decide (employeeCompare (-1) a b ≤ 0)) = true →
      (decide (employeeCompare (-1) b c ≤ 0)) = true →
      (decide (employeeCompare (-1) a c ≤ 0)) = true := by
    intro a b c hab hbc
    rw [decide_eq_true_iff] at hab hbc ⊢
    rw [employeeCompare_negOne_le_iff] at hab hbc ⊢
    exact byNameLe_trans hbc hab
  have htotal : ∀ a b : Employee,
      ((decide (employeeCompare (-1) a b ≤ 0)) ||
        (decide (employeeCompare (-1) b a ≤ 0))) = true := by
    intro a b
    rw [Bool.or_eq_true, decide_eq_true_iff, decide_eq_true_iff,
      employeeCompare_negOne_le_iff, employeeCompare_negOne_le_iff]
    exact (byNameLe_total a b).symm
  have hp := List.sorted_mergeSort htrans htotal l
  exact hp.imp (fun h => (employeeCompare_negOne_le_iff _ _).mp
    (of_decide_eq_true h))

theorem toggleSort_sort_eq (st : RepeatElements) :
    (st.toggleSort).sort = -st.sort := by
  simp only [RepeatElements.toggleSort]
  omega

theorem toggleSort_employees_asc (st : RepeatElements) (h : st.sort = -1) :
    (st.toggleSort).employees.Pairwise byNameLe := by
  have hs : st.sort * -1 = 1 := by omega
  simp only [RepeatElements.toggleSort, hs]
  exact mergeSort_asc_pairwise st.employees

theorem toggleSort_employees_desc (st : RepeatElements) (h : st.sort = 1) :
    (st.toggleSort).employees.Pairwise (fun a b => byNameLe b a) := by
  have hs : st.sort * -1 = -1 := by omega
  simp only [RepeatElements.toggleSort, hs]
  exact mergeSort_desc_pairwise st.employees

/- ------------------------------------------------------------------
   MaxDirective helper lemmas
   ------------------------------------------------------------------ -/

theorem numberMinValue_pos : 0 < numberMinValue := by
  rw [numberMinValue]
  positivity

theorem numberMinValue_le_one : numberMinValue ≤ 1 := by
  rw [numberMinValue]
  rw [div_le_one (by positivity)]
  exact one_le_pow₀ (by norm_num)

theorem runCalls_maxValue (d : MaxDirective) (calls : List (ℚ × ℚ)) :
    (MaxDirective.runCalls d calls).maxValue
      = calls.foldl (fun acc p => max acc (max p.1 p.2)) d.maxValue := by
  induction calls generalizing d with
  | nil => rfl
  | cons p ps ih =>
    show (MaxDirective.runCalls ((d.render p.1 p.2).2) ps).maxValue = _
    rw [List.foldl_cons, ih]
    congr 1
    show max p.1 (max d.maxValue p.2) = max d.maxValue (max p.1 p.2)
    rw [max_left_comm]

/- ------------------------------------------------------------------
   Claim theorems
   ------------------------------------------------------------------ -/

/-- C1 (counterexample): it is not the case that every non-empty map of
changed properties passed to `PerformingUpdateElement.shouldUpdate` makes it
return true: the non-empty map containing only the changed property `prop2`
makes `shouldUpdate` return false, so a change to `prop2` alone does not
trigger an update. -/
theorem shouldUpdate_nonempty_counterexample :
    PerformingUpdateElement.shouldUpdate [("prop2", "old")] = false ∧
    ([("prop2", "old")] : List (String × String)) ≠ [] := by
  constructor
  · decide
  · decide

/-- C1 (amended): `PerformingUpdateElement.shouldUpdate` returns true exactly
when the changed-properties map contains the key `prop1`; consequently the
update cycle (recomputing `sha` and re-rendering) runs exactly for change
sets containing `prop1`, and a change set without `prop1` (such as one for
`prop2` or `sha` alone) leaves the component state and view unchanged. -/
theorem shouldUpdate_iff_prop1_changed (s : PerformingUpdateElement)
    (m : List (String × String)) :
    (PerformingUpdateElement.shouldUpdate m = true ↔ ∃ v, ("prop1", v) ∈ m) ∧
    (PerformingUpdateElement.shouldUpdate m = false →
      PerformingUpdateElement.performUpdate s m = (s, none)) ∧
    (PerformingUpdateElement.shouldUpdate m = true →
      PerformingUpdateElement.performUpdate s m =
        ({ s with sha := s.prop1 ++ " " ++ s.prop2 },
          some (PerformingUpdateElement.render
            { s with sha := s.prop1 ++ " " ++ s.prop2 }))) := by
  refine ⟨⟨?_, ?_⟩, ?_, ?_⟩
  · intro h
    rw [PerformingUpdateElement.shouldUpdate, List.any_eq_true] at h
    obtain ⟨p, hp, hd⟩ := h
    rw [decide_eq_true_iff] at hd
    refine ⟨p.2, ?_⟩
    rw [← hd]
    simpa using hp
  · rintro ⟨v, hv⟩
    rw [PerformingUpdateElement.shouldUpdate, List.any_eq_true]
    exact ⟨("prop1", v), hv, by simp⟩
  · intro h
    simp [PerformingUpdateElement.performUpdate, h]
  · intro h
    simp [PerformingUpdateElement.performUpdate,
      PerformingUpdateElement.willUpdate, h]

/-- C1 (witness): at the concrete change set for `prop2` only, the update
cycle leaves the initial state unchanged and produces no render; at the
concrete change set for `prop1`, `shouldUpdate` returns true. -/
theorem shouldUpdate_iff_prop1_changed_witness :
    PerformingUpdateElement.performUpdate PerformingUpdateElement.init
      [("prop2", "old")] = (PerformingUpdateElement.init, none) ∧
    PerformingUpdateElement.shouldUpdate [("prop1", "new")] = true :=
  ⟨(shouldUpdate_iff_prop1_changed PerformingUpdateElement.init
      [("prop2", "old")]).2.1 (by decide),
    (shouldUpdate_iff_prop1_changed PerformingUpdateElement.init
      [("prop1", "new")]).1.mpr ⟨"new", by decide⟩⟩

/-- C2 (counterexample): the max directive's `render` does not depend only on
the arguments of the call: on a fresh instance `render(3, 0)` returns 3, but
after an intervening `render(5, 0)` on the same instance, the identical call
`render(3, 0)` returns 5. -/
theorem maxDirective_stateful_counterexample :
    ((MaxDirective.start.render 3 0).1 = 3) ∧
    ((((MaxDirective.start.render 5 0).2).render 3 0).1 = 5) ∧
    (3 : ℚ) ≠ 5 := by
  have h0 : max numberMinValue (0 : ℚ) = numberMinValue :=
    max_eq_left (le_of_lt numberMinValue_pos)
  have h3 : max (3 : ℚ) numberMinValue = 3 :=
    max_eq_left (le_trans numberMinValue_le_one (by norm_num))
  refine ⟨?_, ?_, by norm_num⟩
  · show max 3 (max MaxDirective.start.maxValue 0) = 3
    show max 3 (max numberMinValue 0) = 3
    rw [h0]
    exact h3
  · show max 3 (max (max 5 (max MaxDirective.start.maxValue 0)) 0) = 5
    show max 3 (max (max 5 (max numberMinValue 0)) 0) = 5
    rw [h0]
    rw [max_eq_left (le_trans numberMinValue_le_one (by norm_num) :
      numberMinValue ≤ (5 : ℚ))]
    rw [max_eq_left (by norm_num : (0 : ℚ) ≤ 5)]
    rw [max_eq_right (by norm_num : (3 : ℚ) ≤ 5)]

/-- C2 (amended): `noVowels` is stateless — its result is determined by its
argument alone — but the max directive is not: `MaxDirective.render` reads
and writes the per-instance `maxValue` field, so instances with different
accumulated state return different results for identical arguments. -/
theorem noVowels_stateless_maxDirective_stateful :
    (∀ s t : String, s = t → noVowels s = noVowels t) ∧
    ¬ (∀ d e : MaxDirective, (d.render 3 0).1 = (e.render 3 0).1) := by
  constructor
  · intro s t h
    rw [h]
  · intro hall
    have h := hall { maxValue := 5 } { maxValue := 3 }
    have h1 : ((({ maxValue := 5 } : MaxDirective).render 3 0).1 : ℚ) = 5 := by
      show max 3 (max 5 0) = 5
      rw [max_eq_left (by norm_num : (0 : ℚ) ≤ 5)]
      rw [max_eq_right (by norm_num : (3 : ℚ) ≤ 5)]
    have h2 : ((({ maxValue := 3 } : MaxDirective).render 3 0).1 : ℚ) = 3 := by
      show max 3 (max 3 0) = 3
      rw [max_eq_left (by norm_num : (0 : ℚ) ≤ 3)]
      rw [max_self]
    rw [h1, h2] at h
    norm_num at h

/-- C2 (witness): the stateless half applied at a concrete string. -/
theorem noVowels_stateless_maxDirective_stateful_witness :
    noVowels (String.mk ['l', 'i', 't']) = noVowels (String.mk ['l', 'i', 't']) :=
  noVowels_stateless_maxDirective_stateful.1 (String.mk ['l', 'i', 't'])
    (String.mk ['l', 'i', 't']) rfl

/-- C3 (counterexample): not every mutable component instance field has a
number, string or boolean type: `RepeatElements.employees` is declared as an
array of records (and `ListElements.colors` as an array of strings), so the
inventory of fields transcribed from the source refutes the universal
claim. -/
theorem componentFields_not_all_simple :
    (componentFields.all fun f => TsType.isSimple f.fieldType) = false ∧
    TsType.isSimple (TsType.array (TsType.record
      [("id", TsType.number), ("givenName", TsType.string),
        ("familyName", TsType.string)])) = false := by
  constructor
  · rfl
  · rfl

/-- C3 (amended): component state is ephemeral and per-instance, but not all
of it is a simple number, string or boolean: among the fields of the
components of the list demo, the only simple field is the number
`RepeatElements.sort`, while `ListElements.colors`, `RepeatElements.employees`
and `RepeatOrMap.users` hold structured values — each an array (of strings,
respectively of records). -/
theorem componentFields_structured_inventory :
    ((componentFields.filter fun f => ! TsType.isSimple f.fieldType).map
        ComponentField.fieldName = ["colors", "employees", "users"]) ∧
    ((componentFields.filter fun f => TsType.isSimple f.fieldType).map
        ComponentField.fieldName = ["sort"]) ∧
    (componentFields.all fun f =>
        TsType.isSimple f.fieldType || TsType.isArray f.fieldType) = true := by
  refine ⟨rfl, rfl, rfl⟩

/-- C4: every call to `RepeatElements.toggleSort` negates the `sort` field
and replaces `employees` with a permutation (the same multiset) of the
previous list that is sorted by family name with ties broken by given name —
ascending when the direction used for the sort (the value of `sort` after
the negation) is 1, i.e. when the field was -1 before the call, and
descending when it is -1; consequently two consecutive calls starting from
direction 1 (the initial value) leave the list sorted ascending by
(familyName, givenName). -/
theorem toggleSort_spec (st : RepeatElements) :
    (st.toggleSort).sort = -st.sort ∧
    (st.toggleSort).employees.Perm st.employees ∧
    (st.sort = -1 → (st.toggleSort).employees.Pairwise byNameLe) ∧
    (st.sort = 1 →
      (st.toggleSort).employees.Pairwise (fun a b => byNameLe b a)) ∧
    (st.sort = 1 →
      ((st.toggleSort).toggleSort).employees.Pairwise byNameLe) := by
  refine ⟨toggleSort_sort_eq st, ?_, ?_, ?_, ?_⟩
  · exact List.mergeSort_perm st.employees _
  · exact toggleSort_employees_asc st
  · exact toggleSort_employees_desc st
  · intro h
    have h5 : (st.toggleSort).sort = -1 := by
      rw [toggleSort_sort_eq st, h]
    exact toggleSort_employees_asc (st.toggleSort) h5

/-- C4 (witness): concrete instances — from the initial state (direction 1)
one call leaves the list sorted descending and a second call leaves it
sorted ascending; from a state with direction -1 one call sorts
ascending. -/
theorem toggleSort_spec_witness :
    ((RepeatElements.init.toggleSort).toggleSort).employees.Pairwise
      byNameLe ∧
    (RepeatElements.init.toggleSort).employees.Pairwise
      (fun a b => byNameLe b a) ∧
    ((RepeatElements.mk (-1) RepeatElements.init.employees).toggleSort).employees.Pairwise
      byNameLe :=
  ⟨(toggleSort_spec RepeatElements.init).2.2.2.2 rfl,
    (toggleSort_spec RepeatElements.init).2.2.2.1 rfl,
    (toggleSort_spec
      (RepeatElements.mk (-1) RepeatElements.init.employees)).2.2.1 rfl⟩

/-- C5: after every call of
`AttributeChangedCallbackElement.attributeChangedCallback(name, oldValue,
newValue)`, the component's `msg` property equals `newValue`: the observed
attribute value is synchronized to the property on every attribute
change. -/
theorem attributeChangedCallback_syncs_msg
    (s : AttributeChangedCallbackElement) (name oldValue newValue : String) :
    (s.attributeChangedCallback name oldValue newValue).msg = newValue := rfl

/-- C6: each invocation of the click handler of
`ListenersInTheElementTemplate` increases `count` by exactly 1: from any
starting value `n`, one invocation yields `n + 1`, and `k` invocations yield
`n + k`. -/
theorem increment_adds_one (n : ℤ) (k : Nat) :
    ((ListenersInTheElementTemplate.mk n).increment).count = n + 1 ∧
    ((ListenersInTheElementTemplate.mk n).clicks k).count = n + k := by
  constructor
  · rfl
  · induction k generalizing n with
    | zero =>
      show n = n + (0 : Nat)
      simp
    | succ k ih =>
      show (((ListenersInTheElementTemplate.mk n).increment).clicks k).count
        = n + (k + 1 : Nat)
      have h : (ListenersInTheElementTemplate.mk n).increment
          = ListenersInTheElementTemplate.mk (n + 1) := rfl
      rw [h, ih (n + 1)]
      push_cast
      ring

/-- C7: a `MaxDirective` instance is a monotone running maximum: `maxValue`
never decreases across a `render` call, and on an instance freshly created
(with `maxValue = Number.MIN_VALUE`), after any sequence of prior calls a
further call `render(v, m)` returns the maximum of `Number.MIN_VALUE` and
all `value`/`minValue` arguments seen so far, including `v` and `m`. -/
theorem maxDirective_running_max (calls : List (ℚ × ℚ)) (v m : ℚ)
    (d : MaxDirective) :
    d.maxValue ≤ ((d.render v m).2).maxValue ∧
    ((MaxDirective.runCalls MaxDirective.start calls).render v m).1
      = (calls ++ [(v, m)]).foldl (fun acc p => max acc (max p.1 p.2))
          numberMinValue := by
  constructor
  · show d.maxValue ≤ max v (max d.maxValue m)
    exact le_trans (le_max_left _ _) (le_max_right _ _)
  · have h := runCalls_maxValue MaxDirective.start calls
    rw [List.foldl_append]
    show max v (max (MaxDirective.runCalls MaxDirective.start calls).maxValue m)
      = max (List.foldl (fun acc p => max acc (max p.1 p.2))
          numberMinValue calls) (max v m)
    rw [h]
    show max v (max (List.foldl (fun acc p => max acc (max p.1 p.2))
        MaxDirective.start.maxValue calls) m)
      = max (List.foldl (fun acc p => max acc (max p.1 p.2))
          numberMinValue calls) (max v m)
    rw [show MaxDirective.start.maxValue = numberMinValue from rfl]
    rw [max_left_comm]

theorem isVowelChar_noVowelsChar (c : Char) :
    isVowelChar (noVowelsChar c) = false := by
  cases h : isVowelChar c
  · have hcond : ¬ (isVowelChar c = true) := by
      rw [h]
      exact Bool.false_ne_true
    have hc : noVowelsChar c = c := by
      rw [noVowelsChar, if_neg hcond]
    rw [hc, h]
  · have hc : noVowelsChar c = 'x' := by
      rw [noVowelsChar, if_pos h]
    rw [hc]
    decide

theorem noVowelsChar_idem (c : Char) :
    noVowelsChar (noVowelsChar c) = noVowelsChar c := by
  have h := isVowelChar_noVowelsChar c
  have hcond : ¬ (isVowelChar (noVowelsChar c) = true) := by
    rw [h]
    exact Bool.false_ne_true
  rw [noVowelsChar, if_neg hcond]

theorem noVowels_data_getD (l : List Char) (i : Nat) :
    (l.map noVowelsChar).getD i 'z' = noVowelsChar (l.getD i 'z') := by
  induction l generalizing i with
  | nil => cases i <;> rfl
  | cons c cs ih =>
    cases i with
    | zero => rfl
    | succ j => exact ih j

/-- C8: `noVowels` replaces exactly the vowel characters of its argument with
'x': the result has the same length, contains no vowel, agrees with the
input at every non-vowel position, and `noVowels` is idempotent. -/
theorem noVowels_spec (s : String) :
    (noVowels s).length = s.length ∧
    (∀ c, c ∈ (noVowels s).data → isVowelChar c = false) ∧
    (∀ i : Nat, i < s.data.length → isVowelChar (s.data.getD i 'z') = false →
      (noVowels s).data.getD i 'z' = s.data.getD i 'z') ∧
    noVowels (noVowels s) = noVowels s := by
  refine ⟨?_, ?_, ?_, ?_⟩
  · show (s.data.map noVowelsChar).length = s.data.length
    rw [List.length_map]
  · intro c hc
    obtain ⟨a, ha, rfl⟩ := List.mem_map.mp hc
    exact isVowelChar_noVowelsChar a
  · intro i hi hnv
    have hcond : ¬ (isVowelChar (s.data.getD i 'z') = true) := by
      rw [hnv]
      exact Bool.false_ne_true
    show (s.data.map noVowelsChar).getD i 'z' = s.data.getD i 'z'
    rw [noVowels_data_getD, noVowelsChar, if_neg hcond]
  · show String.mk ((s.data.map noVowelsChar).map noVowelsChar)
      = String.mk (s.data.map noVowelsChar)
    rw [List.map_map]
    congr 1
    have hcomp : noVowelsChar ∘ noVowelsChar = noVowelsChar :=
      funext noVowelsChar_idem
    rw [hcomp]

/-- C8 (witness): on the concrete string "Hi", the non-vowel position 0 is
unchanged, and the character at position 0 of the result is not a vowel. -/
theorem noVowels_spec_witness :
    (noVowels (String.mk ['H', 'i'])).data.getD 0 'z'
      = (String.mk ['H', 'i']).data.getD 0 'z' ∧
    isVowelChar 'H' = false :=
  ⟨(noVowels_spec (String.mk ['H', 'i'])).2.2.1 0 (by decide) (by decide),
    (noVowels_spec (String.mk ['H', 'i'])).2.1 'H' (by decide)⟩

/-- C9: `MyDispatcher._dispatchLogin` leaves the component state unchanged
and dispatches a `mylogin` `CustomEvent` if and only if the input's value is
non-empty after trimming; the dispatched event carries the trimmed value as
`detail.name` and has `bubbles = true` and `composed = true`; when the
trimmed value is empty no event is dispatched. -/
theorem dispatchLogin_spec (st : MyDispatcher) :
    ((st.dispatchLogin).1 = st) ∧
    ((st.dispatchLogin).2.isSome ↔ jsTrim st.inputValue ≠ "") ∧
    (∀ e, (st.dispatchLogin).2 = some e →
      e.eventKind = "mylogin" ∧ e.detailName = jsTrim st.inputValue ∧
      e.bubbles = true ∧ e.composed = true) ∧
    (jsTrim st.inputValue = "" → (st.dispatchLogin).2 = none) := by
  by_cases h : jsTrim st.inputValue = ""
  · refine ⟨?_, ?_, ?_, ?_⟩
    · simp [MyDispatcher.dispatchLogin, h]
    · simp [MyDispatcher.dispatchLogin, h]
    · intro e he
      simp [MyDispatcher.dispatchLogin, h] at he
    · intro _
      simp [MyDispatcher.dispatchLogin, h]
  · refine ⟨?_, ?_, ?_, ?_⟩
    · simp [MyDispatcher.dispatchLogin, h]
    · simp [MyDispatcher.dispatchLogin, h]
    · intro e he
      simp only [MyDispatcher.dispatchLogin, if_pos h, Option.some.injEq] at he
      subst he
      exact ⟨rfl, rfl, rfl, rfl⟩
    · intro h0
      exact absurd h0 h

/-- C9 (witness): a whitespace-only input dispatches nothing, and the
concrete input "bob" dispatches an event whose `detail.name` is "bob". -/
theorem dispatchLogin_spec_witness :
    ((MyDispatcher.mk (String.mk [' ', ' '])).dispatchLogin).2 = none ∧
    (LoginEvent.mk ("mylogin") ("bob") true true).detailName
      = jsTrim (MyDispatcher.mk (String.mk ['b', 'o', 'b'])).inputValue :=
  ⟨(dispatchLogin_spec (MyDispatcher.mk (String.mk [' ', ' ']))).2.2.2
      (by decide),
    ((dispatchLogin_spec (MyDispatcher.mk (String.mk ['b', 'o', 'b']))).2.2.1
      (LoginEvent.mk ("mylogin") ("bob") true true) (by decide)).2.1⟩

/-- C10 (counterexample): it is not the case that no component supplies its
own timing or scheduling mechanism for updates: `CustomizeUpdateElement`
overrides `scheduleUpdate()` (deferring the update behind a `setTimeout`
promise) and `TriggeringUpdateElement` installs a `setInterval` calling
`requestUpdate()`. -/
theorem schedulingProfiles_own_timing_counterexample :
    (schedulingProfiles.all fun p => ! p.suppliesOwnUpdateTiming) = false ∧
    (SchedulingProfile.mk ("CustomizeUpdateElement") true false false)
        ∈ schedulingProfiles ∧
    (SchedulingProfile.mk ("CustomizeUpdateElement") true false
        false).suppliesOwnUpdateTiming = true := by
  refine ⟨rfl, by decide, rfl⟩

/-- C10 (amended): the repository defines no scheduler, lock, queue or
concurrent data structure of its own (no inventoried component does), but
two demo components do customize update timing: `TriggeringUpdateElement`
installs a `setInterval` that calls `requestUpdate()` every second, and
`CustomizeUpdateElement` overrides `scheduleUpdate()` to defer the update
behind a `setTimeout` promise; all other update scheduling is owned by the
external framework. -/
theorem schedulingProfiles_amended :
    (schedulingProfiles.all fun p => ! p.definesSchedulerLockOrQueue) = true ∧
    ((schedulingProfiles.filter fun p => p.suppliesOwnUpdateTiming).map
        SchedulingProfile.owner
      = ["TriggeringUpdateElement", "CustomizeUpdateElement"]) := by
  refine ⟨rfl, rfl⟩
